import Mathlib

/-!
Verification of the siacobaflask registration/authentication core
(`src/app.py`) against its specification.

The embedding models:
- the itsdangerous `URLSafeTimedSerializer` token service (`serializer.dumps`
  / `serializer.loads`): a signed token string is represented by the data it
  encodes — payload, salt ("purpose tag") and issuance timestamp.  The
  signature binds all three to the process secret, so `loads` with a salt
  different from the one used at `dumps` fails the signature check
  (`BadSignature`), and `loads` after more than `max_age` seconds fails with
  `SignatureExpired`.  Only well-formed tokens produced by the process are
  representable; the claims under study never need forged byte strings.
- the Supabase-backed stores (`users`, `pending_registrations`) as lists of
  records in insertion order; `.eq(col, v).execute()` with `data[0]` becomes
  `List.find?`, delete-by-email becomes `List.filter`, insert becomes append.
  Store-level failures (exceptions caught in the Python helpers, which then
  return `None`) are modelled by explicit boolean success flags.
- `generate_password_hash` / `check_password_hash` (werkzeug, an external
  collaborator) as function parameters of the flows.
- timestamps (`datetime.now()`) as natural-number seconds passed explicitly.
-/

namespace Siacoba

/-- A row of the `users` table, as inserted by `create_user` in app.py. -/
structure User where
  email : String
  username : String
  passwordHash : String
  role : String
deriving Repr, DecidableEq

/-- A signed token as produced by `serializer.dumps(payload, salt=...)`:
the data bound together by the itsdangerous signature. -/
structure Token where
  payload : String
  salt : String
  issuedAt : Nat
deriving Repr, DecidableEq

/-- A row of the `pending_registrations` table, as inserted by
`create_pending_registration` in app.py. -/
structure Pending where
  email : String
  role : String
  token : Token
  expiresAt : Nat
deriving Repr, DecidableEq

/-- The persistent state: the two Supabase tables used by the core. -/
structure DB where
  users : List User
  pending : List Pending
deriving Repr, DecidableEq

/-- Outcome of `serializer.loads`: the payload, or the exception raised
(`SignatureExpired` / `BadSignature`). -/
inductive LoadResult where
  | ok (payload : String)
  | expired
  | badSignature
deriving Repr, DecidableEq

/-- Model of `serializer.dumps(payload, salt=salt)` at time `now`. -/
def dumps (payload salt : String) (now : Nat) : Token :=
  ⟨payload, salt, now⟩

/-- Model of `serializer.loads(token, salt=salt, max_age=maxAge)` at `now`.
itsdangerous first checks the signature — which covers the salt, so a salt
mismatch raises `BadSignature` — and then raises `SignatureExpired` when the
token's age exceeds `max_age`. -/
def loads (t : Token) (salt : String) (maxAge : Nat) (now : Nat) : LoadResult :=
  if t.salt ≠ salt then .badSignature
  else if maxAge < now - t.issuedAt then .expired
  else .ok t.payload

/-- The salt used by `register` / `verify_email` (app.py lines 834, 866). -/
def emailVerificationSalt : String := "email-verification"

/-- The salt used by `forgot_password` / `reset_password` (lines 960, 987). -/
def passwordResetSalt : String := "password-reset"

/-- Character class of `re.search(r'[A-Z]', ...)`: ASCII uppercase. -/
def isUpperAZ (c : Char) : Bool := 'A' ≤ c && c ≤ 'Z'

/-- Character class of `re.search(r'[a-z]', ...)`: ASCII lowercase. -/
def isLowerAZ (c : Char) : Bool := 'a' ≤ c && c ≤ 'z'

/-- Character class of `re.search(r'\d', ...)`: a decimal digit (ASCII). -/
def isDigit09 (c : Char) : Bool := '0' ≤ c && c ≤ '9'

/-- The special-character class of app.py line 35. -/
def specialChars : List Char := "!@#$%^&*(),.?\":\x7b\x7d|<>".toList

/-- Membership in the special-character class. -/
def isSpecial (c : Char) : Bool := specialChars.contains c

/-- Model of `validate_password` (app.py lines 25-37): length window then four
character-class checks, first failure wins, with its Indonesian message. -/
def validate_password (password : String) : Bool × String :=
  if password.length < 8 || 20 < password.length then
    (false, "Password harus 8-20 karakter")
  else if !(password.data.any isUpperAZ) then
    (false, "Password harus mengandung huruf besar")
  else if !(password.data.any isLowerAZ) then
    (false, "Password harus mengandung huruf kecil")
  else if !(password.data.any isDigit09) then
    (false, "Password harus mengandung angka")
  else if !(password.data.any isSpecial) then
    (false, "Password harus mengandung karakter khusus (!@#$%^&*...)")
  else
    (true, "Password valid")

/-- Model of `get_user_by_email` (lines 46-55): first row with this email. -/
def get_user_by_email (db : DB) (email : String) : Option User :=
  db.users.find? (fun u => u.email == email)

/-- Model of `get_user_by_username` (lines 57-66). -/
def get_user_by_username (db : DB) (username : String) : Option User :=
  db.users.find? (fun u => u.username == username)

/-- Model of `get_pending_registration` (lines 88-97). -/
def get_pending_registration (db : DB) (email : String) : Option Pending :=
  db.pending.find? (fun p => p.email == email)

/-- Model of `create_pending_registration` (lines 68-86): delete every row
with this email, then insert the fresh row with `expires_at = now + 1h`.
The Supabase calls can raise; `deleteOk` and `insertOk` model success of the
two calls (an exception is caught and the function returns `None`, with the
remote effects of the calls already performed kept). -/
def create_pending_registration (db : DB) (deleteOk insertOk : Bool)
    (email role : String) (token : Token) (now : Nat) : Option Pending × DB :=
  if !deleteOk then (none, db)
  else
    let afterDelete := db.pending.filter (fun p => p.email != email)
    if !insertOk then (none, { db with pending := afterDelete })
    else
      let row : Pending := ⟨email, role, token, now + 3600⟩
      (some row, { db with pending := afterDelete ++ [row] })

/-- Model of `delete_pending_registration` (lines 99-106).  Failure is caught and
its boolean result is ignored by the only caller, so it is modelled as the
successful delete. -/
def delete_pending_registration (db : DB) (email : String) : DB :=
  { db with pending := db.pending.filter (fun p => p.email != email) }

/-- Model of `create_user` (lines 108-122): hash the password, insert the row;
on a store exception the helper returns `None` and the table is unchanged.
`hash` stands for werkzeug's `generate_password_hash`. -/
def create_user (db : DB) (insertOk : Bool) (hash : String → String)
    (email username password role : String) : Option User × DB :=
  if !insertOk then (none, db)
  else
    let u : User := ⟨email, username, hash password, role⟩
    (some u, { db with users := db.users ++ [u] })

/-- Outcome of a POST to `/register` (app.py lines 817-857), keyed by the
flash message it produces.  The verification e-mail is dispatched after the
pending row is persisted and never alters the store, so e-mail dispatch is
left outside the state transition. -/
inductive RegisterResult where
  | invalidInput
  | duplicateEmail
  | storeFailure
  | success
deriving Repr, DecidableEq

/-- The `register` POST handler (lines 819-857): validate the email
(`not email or '@' not in email`), reject duplicate accounts, issue the
verification token, persist the pending registration.  Returns the outcome,
the resulting store, and the token issued (if any). -/
def register (db : DB) (deleteOk insertOk : Bool) (email role : String)
    (now : Nat) : RegisterResult × DB × Option Token :=
  if email == "" || !(email.data.contains '@') then (.invalidInput, db, none)
  else if (get_user_by_email db email).isSome then (.duplicateEmail, db, none)
  else
    let token := dumps email emailVerificationSalt now
    match create_pending_registration db deleteOk insertOk email role token now with
    | (none, db1) => (.storeFailure, db1, none)
    | (some _, db1) => (.success, db1, some token)

/-- Outcome of a GET to `/verify/<token>` (lines 862-878, 919): the
registration form is shown, or the request is redirected away. -/
inductive VerifyGet where
  | showForm
  | expiredToken
  | invalidToken
  | pendingNotFound
deriving Repr, DecidableEq

/-- The GET branch of `verify_email`: token check and pending lookup only. -/
def verify_email_get (db : DB) (tok : Token) (now : Nat) : VerifyGet :=
  match loads tok emailVerificationSalt 3600 now with
  | .expired => .expiredToken
  | .badSignature => .invalidToken
  | .ok email =>
    match get_pending_registration db email with
    | none => .pendingNotFound
    | some _ => .showForm

/-- Outcome of a POST to `/verify/<token>` (lines 862-917), keyed by the
flash message produced. -/
inductive VerifyResult where
  | expiredToken
  | invalidToken
  | pendingNotFound
  | invalidUsername
  | usernameTaken
  | passwordMismatch
  | policyViolation (msg : String)
  | createFailed
  | success (user : User)
deriving Repr, DecidableEq

/-- The POST branch of `verify_email` (lines 862-917): token check, pending
lookup, username and password checks, then `create_user` with the role taken
from the pending row, and deletion of the pending row on success. -/
def verify_email (db : DB) (insertOk : Bool) (hash : String → String)
    (tok : Token) (username password confirm : String) (now : Nat) :
    VerifyResult × DB :=
  match loads tok emailVerificationSalt 3600 now with
  | .expired => (.expiredToken, db)
  | .badSignature => (.invalidToken, db)
  | .ok email =>
    match get_pending_registration db email with
    | none => (.pendingNotFound, db)
    | some pending =>
      if username == "" || username.length < 3 then (.invalidUsername, db)
      else if (get_user_by_username db username).isSome then (.usernameTaken, db)
      else if password != confirm then (.passwordMismatch, db)
      else
        match validate_password password with
        | (false, msg) => (.policyViolation msg, db)
        | (true, _) =>
          match create_user db insertOk hash email username password pending.role with
          | (none, db1) => (.createFailed, db1)
          | (some user, db1) => (.success user, delete_pending_registration db1 email)

/-- Outcome of a POST to `/login` (lines 921-947): the flash message on
failure, or the session fields `{username, role, email}` set on success. -/
inductive LoginResult where
  | failure (msg : String)
  | success (username role email : String)
deriving Repr, DecidableEq

/-- The `login` POST handler (lines 923-945).  `checkHash` stands for
werkzeug's `check_password_hash`. -/
def login (checkHash : String → String → Bool) (db : DB)
    (username password : String) : LoginResult :=
  match get_user_by_username db username with
  | none => .failure "Username atau password salah!"
  | some user =>
    if !(checkHash user.passwordHash password) then
      .failure "Username atau password salah!"
    else
      .success username user.role user.email

/-- Whether a login attempt failed (either flash-and-redirect branch). -/
def LoginResult.isFailure : LoginResult → Bool
  | .failure _ => true
  | .success _ _ _ => false

/-- The four role strings the application routes to dashboards
(lines 1019-1045): kasir, akuntan, owner, karyawan. -/
def validRoles : List String := ["kasir", "akuntan", "owner", "karyawan"]

/-- Helper: a successful `loads` returns exactly the token's payload. -/
theorem loads_ok_payload (t : Token) (s : String) (m n : Nat) (e : String)
    (h : loads t s m n = .ok e) : e = t.payload := by
  unfold loads at h
  split at h
  · exact absurd h (by simp)
  · split at h
    · exact absurd h (by simp)
    · injection h with h
      exact h.symm

/-- Helper: any failing login yields the one generic flash message of
app.py lines 931 and 936. -/
theorem login_failure_message (checkHash : String → String → Bool) (db : DB)
    (username password : String)
    (h : (login checkHash db username password).isFailure = true) :
    login checkHash db username password
      = .failure "Username atau password salah!" := by
  unfold login
  cases hu : get_user_by_username db username with
  | none => rfl
  | some user =>
    by_cases hc : checkHash user.passwordHash password = true
    · exfalso
      simp [login, LoginResult.isFailure, hu, hc] at h
    · simp only [Bool.not_eq_true] at hc
      simp [hc]

/-- C1: a token issued by the Signed Token Service with purpose tag A fails
verification with `BadSignature` (InvalidToken) when verified under any
distinct purpose tag B, for every payload, issuance time, `max_age` and
verification time. -/
theorem token_purpose_isolation (payload A B : String) (t maxAge now : Nat)
    (h : A ≠ B) :
    loads (dumps payload A t) B maxAge now = .badSignature := by
  simp [loads, dumps, h]

/-- Witness for C1: an email-verification token checked under the
password-reset purpose is rejected as invalid. -/
theorem token_purpose_isolation_witness :
    loads (dumps "a@x.com" emailVerificationSalt 0) passwordResetSalt 3600 0
      = .badSignature :=
  token_purpose_isolation "a@x.com" emailVerificationSalt passwordResetSalt
    0 3600 0 (by decide)

/-- C6: verifying a token with the purpose it was issued under, while the
elapsed time is within `max_age`, returns exactly the issued payload. -/
theorem token_roundtrip (payload purpose : String) (t maxAge now : Nat)
    (h : now - t ≤ maxAge) :
    loads (dumps payload purpose t) purpose maxAge now = .ok payload := by
  simp only [loads, dumps, ne_eq]
  rw [if_neg (by simp), if_neg (by omega)]

/-- Witness for C6: round trip immediately after issuance. -/
theorem token_roundtrip_witness :
    loads (dumps "a@x.com" emailVerificationSalt 0) emailVerificationSalt
      3600 0 = .ok "a@x.com" :=
  token_roundtrip "a@x.com" emailVerificationSalt 0 3600 0 (by decide)

/-- C4: when account creation fails at the store level (`create_user`
returns `None`), a POST to `verify_email` leaves the whole store — in
particular the pending registration row — unchanged; the row is only
deleted after a successful creation. -/
theorem create_failure_preserves_pending (db : DB) (hash : String → String)
    (tok : Token) (username password confirm : String) (now : Nat) :
    (verify_email db false hash tok username password confirm now).2 = db := by
  unfold verify_email
  cases hl : loads tok emailVerificationSalt 3600 now with
  | expired => rfl
  | badSignature => rfl
  | ok email =>
    dsimp only
    cases hp : get_pending_registration db email with
    | none => rfl
    | some pending =>
      dsimp only
      split
      · rfl
      · split
        · rfl
        · split
          · rfl
          · cases hv : validate_password password with
            | mk ok msg =>
              cases ok
              · rfl
              · rfl

/-- C7: login failure is a single indistinguishable outcome — any two
failing login runs (unknown username, or wrong password for an existing
username, over any stores and hash checkers) produce the identical
result. -/
theorem login_failures_indistinguishable
    (ch1 ch2 : String → String → Bool) (db1 db2 : DB)
    (u1 p1 u2 p2 : String)
    (h1 : (login ch1 db1 u1 p1).isFailure = true)
    (h2 : (login ch2 db2 u2 p2).isFailure = true) :
    login ch1 db1 u1 p1 = login ch2 db2 u2 p2 := by
  rw [login_failure_message ch1 db1 u1 p1 h1,
    login_failure_message ch2 db2 u2 p2 h2]

/-- A store with one account, used to witness login failures. -/
def dbLogin : DB := ⟨[⟨"a@x.com", "alice", "Abcdef1!", "owner"⟩], []⟩

/-- Witness for C7: an unknown username and a wrong password for an
existing username fail with the same result. -/
theorem login_failures_indistinguishable_witness :
    login (fun h p => h == p) dbLogin "bob" "x"
      = login (fun h p => h == p) dbLogin "alice" "wrong" :=
  login_failures_indistinguishable (fun h p => h == p) (fun h p => h == p)
    dbLogin dbLogin "bob" "x" "alice" "wrong" (by decide) (by decide)

/-- C2: the password validator accepts exactly the strings of length 8-20
holding at least one ASCII uppercase letter, one lowercase letter, one
decimal digit and one special character; on rejection the returned reason is
that of the first violated rule in the order length, uppercase, lowercase,
digit, special. -/
theorem validate_password_spec (p : String) :
    ((validate_password p).1 = true ↔
      (8 ≤ p.length ∧ p.length ≤ 20 ∧ p.data.any isUpperAZ = true ∧
        p.data.any isLowerAZ = true ∧ p.data.any isDigit09 = true ∧
        p.data.any isSpecial = true))
    ∧ (validate_password p).2 =
      (if p.length < 8 ∨ 20 < p.length then "Password harus 8-20 karakter"
       else if p.data.any isUpperAZ = false then
         "Password harus mengandung huruf besar"
       else if p.data.any isLowerAZ = false then
         "Password harus mengandung huruf kecil"
       else if p.data.any isDigit09 = false then
         "Password harus mengandung angka"
       else if p.data.any isSpecial = false then
         "Password harus mengandung karakter khusus (!@#$%^&*...)"
       else "Password valid") := by
  unfold validate_password
  by_cases h12 : p.length < 8 ∨ 20 < p.length
  · have hb : (decide (p.length < 8) || decide (20 < p.length)) = true := by
      rcases h12 with h | h <;> simp [h]
    rw [if_pos hb, if_pos h12]
    constructor
    · dsimp only
      simp only [Bool.false_eq_true, false_iff]
      rintro ⟨a, b, -⟩
      omega
    · rfl
  · have hb : (decide (p.length < 8) || decide (20 < p.length)) = false := by
      simp only [Bool.or_eq_false_iff, decide_eq_false_iff_not]
      omega
    rw [if_neg (by simp [hb]), if_neg h12]
    cases hU : p.data.any isUpperAZ <;> cases hL : p.data.any isLowerAZ <;>
      cases hD : p.data.any isDigit09 <;> cases hS : p.data.any isSpecial <;>
      simp_all

/-- C8: the register handler first rejects a structurally invalid email
(empty or lacking an at-sign) with the invalid-input outcome, and only then
rejects an email that already has an account with the duplicate outcome; in
both failure cases the store is unchanged and no token is issued. -/
theorem register_check_order (db : DB) (deleteOk insertOk : Bool)
    (email role : String) (now : Nat) :
    ((email = "" ∨ email.data.contains '@' = false) →
      register db deleteOk insertOk email role now = (.invalidInput, db, none))
    ∧ (email.data.contains '@' = true → (get_user_by_email db email).isSome = true →
      register db deleteOk insertOk email role now
        = (.duplicateEmail, db, none)) := by
  constructor
  · intro h
    unfold register
    have hb : (email == "" || !(email.data.contains '@')) = true := by
      rcases h with h | h
      · subst h; rfl
      · have hm : '@' ∉ email.data := by simp_all
        simp [hm]
    rw [if_pos hb]
  · intro h hdup
    unfold register
    have hm : '@' ∈ email.data := by simp_all
    have hne : email ≠ "" := by
      intro he
      have hnil : ("" : String).data = [] := rfl
      rw [he, hnil] at hm
      exact absurd hm (List.not_mem_nil _)
    have hb : (email == "" || !(email.data.contains '@')) = false := by
      simp [hm, hne]
    rw [if_neg (by simp [hne, hm]), if_pos hdup]

/-- A store with one account for `a@x.com`, used to witness C8. -/
def dbOneAccount : DB := ⟨[⟨"a@x.com", "alice", "h1", "owner"⟩], []⟩

/-- Witness for C8: a malformed email is rejected as invalid input with the
store untouched, and a duplicate email is rejected as duplicate with the
store untouched. -/
theorem register_check_order_witness :
    register ⟨[], []⟩ true true "noatsign" "owner" 0
      = (.invalidInput, ⟨[], []⟩, none)
    ∧ register dbOneAccount true true "a@x.com" "owner" 0
      = (.duplicateEmail, dbOneAccount, none) :=
  ⟨(register_check_order ⟨[], []⟩ true true "noatsign" "owner" 0).1
      (by decide),
   (register_check_order dbOneAccount true true "a@x.com" "owner" 0).2
      (by decide) (by decide)⟩

/-- Helper: a successful POST to `verify_email` found a pending row for the
token's payload email and gave the created account that row's role. -/
theorem verify_success_role (db : DB) (insertOk : Bool)
    (hash : String → String) (tok : Token)
    (username password confirm : String) (now : Nat) (user : User) (db1 : DB)
    (h : verify_email db insertOk hash tok username password confirm now
      = (.success user, db1)) :
    ∃ pend, get_pending_registration db tok.payload = some pend
      ∧ user.role = pend.role := by
  unfold verify_email at h
  cases hl : loads tok emailVerificationSalt 3600 now with
  | expired => rw [hl] at h; simp at h
  | badSignature => rw [hl] at h; simp at h
  | ok email =>
    have he : email = tok.payload := loads_ok_payload _ _ _ _ _ hl
    rw [hl] at h
    dsimp only at h
    rw [he] at h
    cases hp : get_pending_registration db tok.payload with
    | none => rw [hp] at h; simp at h
    | some pending =>
      rw [hp] at h
      dsimp only at h
      refine ⟨pending, rfl, ?_⟩
      split at h
      · simp at h
      · split at h
        · simp at h
        · split at h
          · simp at h
          · cases hv : validate_password password with
            | mk ok msg =>
              rw [hv] at h
              cases ok with
              | false => simp at h
              | true =>
                dsimp only at h
                cases hc : create_user db insertOk hash tok.payload username
                    password pending.role with
                | mk o dbx =>
                  rw [hc] at h
                  cases o with
                  | none => simp at h
                  | some u =>
                    dsimp only at h
                    have hu : u = user := by
                      have := congrArg Prod.fst h
                      simpa using this
                    unfold create_user at hc
                    cases insertOk with
                    | false => simp at hc
                    | true =>
                      simp only [Bool.not_true, Bool.false_eq_true,
                        if_false] at hc
                      have : u = ⟨tok.payload, username, hash password,
                          pending.role⟩ := by
                        have := congrArg Prod.fst hc
                        simpa using this.symm
                      rw [← hu, this]

/-- C5: every successful completion of the registration stores in the new
account exactly the role recorded in the pending registration row for the
token's email; the submitted form of that step carries no role at all
(`verify_email` takes only username, password, confirm). -/
theorem account_role_from_pending (db : DB) (insertOk : Bool)
    (hash : String → String) (tok : Token)
    (username password confirm : String) (now : Nat) (user : User) (db1 : DB)
    (h : verify_email db insertOk hash tok username password confirm now
      = (.success user, db1)) :
    ∃ pend, get_pending_registration db tok.payload = some pend
      ∧ user.role = pend.role :=
  verify_success_role db insertOk hash tok username password confirm now
    user db1 h

/-- A store holding one pending registration with role owner, for the C5
witness. -/
def dbPendingOwner : DB :=
  ⟨[], [⟨"a@x.com", "owner", dumps "a@x.com" emailVerificationSalt 0, 3600⟩]⟩

/-- The account the C5 witness scenario creates (identity hash). -/
def userOwner : User := ⟨"a@x.com", "alice", "Abcdef1!", "owner"⟩

/-- Witness for C5: completing the registration against a pending row with
role owner yields an account whose role is that of the row. -/
theorem account_role_from_pending_witness :
    ∃ pend, get_pending_registration dbPendingOwner
        (dumps "a@x.com" emailVerificationSalt 0).payload = some pend
      ∧ userOwner.role = pend.role :=
  account_role_from_pending dbPendingOwner true (fun s => s)
    (dumps "a@x.com" emailVerificationSalt 0) "alice" "Abcdef1!" "Abcdef1!" 0
    userOwner ⟨[userOwner], []⟩ (by decide)

/-- Helper: deleting the rows of an email leaves no row for it to find. -/
theorem find_after_delete (l : List Pending) (e : String) :
    (l.filter (fun p => p.email != e)).find? (fun p => p.email == e)
      = none := by
  induction l with
  | nil => rfl
  | cons a l ih =>
    by_cases ha : a.email = e
    · simp [List.filter_cons, ha, ih]
    · simp [List.filter_cons, List.find?_cons, ha, ih]

/-- Helper: a pending lookup right after the upsert's delete-then-insert
returns exactly the fresh row. -/
theorem find_fresh_row (l : List Pending) (email : String) (row : Pending)
    (hrow : (row.email == email) = true) :
    (l.filter (fun p => p.email != email) ++ [row]).find?
        (fun p => p.email == email) = some row := by
  rw [List.find?_append, find_after_delete]
  simp [List.find?_cons, hrow]

/-- C9 counterexample: the register handler copies the submitted role string
into the pending row without any enumeration check, and the verification
flow copies it into the created account, so a register/completeRegistration
sequence starting from an empty store with submitted role admin creates an
account whose role admin lies outside the four-value role enumeration. -/
theorem role_outside_enumeration :
    (register ⟨[], []⟩ true true "a@x.com" "admin" 0).2.2
        = some (dumps "a@x.com" emailVerificationSalt 0)
    ∧ (verify_email (register ⟨[], []⟩ true true "a@x.com" "admin" 0).2.1
        true (fun s => s) (dumps "a@x.com" emailVerificationSalt 0)
        "alice" "Abcdef1!" "Abcdef1!" 0).1
      = .success ⟨"a@x.com", "alice", "Abcdef1!", "admin"⟩
    ∧ validRoles.contains "admin" = false := by
  refine ⟨by decide, by decide, by decide⟩

/-- C9 amended: the role stored in an account created by the verification
flow is exactly the role string submitted to the register call that issued
the token — the pipeline preserves it verbatim and enforces no membership
in the four-value enumeration, so the account's role lies in the
enumeration only when the submitted one did. -/
theorem account_role_propagates_from_register (db : DB)
    (email role : String) (now now2 : Nat) (hash : String → String)
    (username password confirm : String) (tok : Token) (db1 : DB)
    (insertOk : Bool) (user : User) (db2 : DB)
    (hreg : register db true true email role now = (.success, db1, some tok))
    (hver : verify_email db1 insertOk hash tok username password confirm now2
      = (.success user, db2)) :
    user.role = role := by
  unfold register at hreg
  split at hreg
  · simp at hreg
  · split at hreg
    · simp at hreg
    · simp only [create_pending_registration, Bool.not_true,
        Bool.false_eq_true, if_false] at hreg
      have hdb : DB.mk db.users
          (db.pending.filter (fun p => p.email != email) ++
            [⟨email, role, dumps email emailVerificationSalt now, now + 3600⟩])
          = db1 := by
        have := congrArg (fun x => x.2.1) hreg
        simpa using this
      have htok : dumps email emailVerificationSalt now = tok := by
        have := congrArg (fun x => x.2.2) hreg
        simpa using this
      obtain ⟨pend, hpend, hrole⟩ :=
        verify_success_role db1 insertOk hash tok username password confirm
          now2 user db2 hver
      rw [← htok] at hpend
      rw [← hdb] at hpend
      unfold get_pending_registration at hpend
      dsimp only [dumps] at hpend
      rw [find_fresh_row _ _ _ (by simp)] at hpend
      injection hpend with hpend
      rw [hrole, ← hpend]

/-- Witness for C9's amended claim: the end-to-end pipeline with submitted
role owner creates the account with role owner. -/
theorem account_role_propagates_from_register_witness :
    userOwner.role = "owner" :=
  account_role_propagates_from_register ⟨[], []⟩ "a@x.com" "owner" 0 0
    (fun s => s) "alice" "Abcdef1!" "Abcdef1!"
    (dumps "a@x.com" emailVerificationSalt 0)
    ⟨[], [⟨"a@x.com", "owner", dumps "a@x.com" emailVerificationSalt 0,
      3600⟩]⟩
    true userOwner ⟨[userOwner], []⟩ (by decide) (by decide)

/-- C10: the verification flow never compares the presented token with the
token string stored in the pending registration row: whenever the presented
token is valid and unexpired and some pending row exists for its payload
email — with no assumption at all relating that row's stored token to the
presented one — the GET branch shows the registration form and the POST
branch never fails with an expired-token, invalid-token or
pending-not-found outcome.  In particular a superseded older token keeps
working against the row inserted by a later register call. -/
theorem verify_ignores_stored_token (db : DB) (tok : Token) (now : Nat)
    (e : String) (pend : Pending) (insertOk : Bool) (hash : String → String)
    (username password confirm : String) (r : VerifyResult) (db1 : DB)
    (hload : loads tok emailVerificationSalt 3600 now = .ok e)
    (hpend : get_pending_registration db e = some pend)
    (hpost : verify_email db insertOk hash tok username password confirm now
      = (r, db1)) :
    verify_email_get db tok now = .showForm
    ∧ r ≠ .expiredToken ∧ r ≠ .invalidToken ∧ r ≠ .pendingNotFound := by
  have he : e = tok.payload := loads_ok_payload _ _ _ _ _ hload
  subst he
  constructor
  · unfold verify_email_get
    rw [hload]
    dsimp only
    rw [hpend]
  · unfold verify_email at hpost
    rw [hload] at hpost
    dsimp only at hpost
    rw [hpend] at hpost
    dsimp only at hpost
    repeat' split at hpost
    all_goals
      rw [Prod.mk.injEq] at hpost
      obtain ⟨hr, -⟩ := hpost
      subst hr
      refine ⟨by simp, by simp, by simp⟩

/-- The store after two register calls for the same email: the second upsert
replaced the first row, so the stored token is the one issued at time 10. -/
def dbSuperseded : DB :=
  (register (register ⟨[], []⟩ true true "a@x.com" "owner" 0).2.1
    true true "a@x.com" "kasir" 10).2.1

/-- The pending row held by `dbSuperseded`. -/
def pendSuperseded : Pending :=
  ⟨"a@x.com", "kasir", dumps "a@x.com" emailVerificationSalt 10, 3610⟩

/-- The token of the first (superseded) register call. -/
def tokSuperseded : Token := dumps "a@x.com" emailVerificationSalt 0

/-- The account created when the superseded token completes registration:
its role comes from the newer pending row. -/
def userSuperseded : User := ⟨"a@x.com", "alice", "Abcdef1!", "kasir"⟩

/-- Witness for C10: the token issued at time 0 was superseded by a second
register call at time 10 (the stored row holds a different token), yet at
time 100 it still shows the form and completes the registration. -/
theorem verify_ignores_stored_token_witness :
    verify_email_get dbSuperseded tokSuperseded 100 = .showForm
    ∧ VerifyResult.success userSuperseded ≠ .expiredToken
    ∧ VerifyResult.success userSuperseded ≠ .invalidToken
    ∧ VerifyResult.success userSuperseded ≠ .pendingNotFound :=
  verify_ignores_stored_token dbSuperseded tokSuperseded 100 "a@x.com"
    pendSuperseded true (fun s => s) "alice" "Abcdef1!" "Abcdef1!"
    (.success userSuperseded) ⟨[userSuperseded], []⟩
    (by decide) (by decide) (by decide)

/-- One register POST: the submitted fields, the request time, and the fate
of the two store calls inside the upsert (delete, insert). -/
structure RegInput where
  email : String
  role : String
  now : Nat
  deleteOk : Bool
  insertOk : Bool
deriving Repr, DecidableEq

/-- The store transition performed by one register POST. -/
def registerStep (db : DB) (i : RegInput) : DB :=
  (register db i.deleteOk i.insertOk i.email i.role i.now).2.1

/-- The store after a sequence of register POSTs. -/
def runRegisters (db : DB) (inputs : List RegInput) : DB :=
  inputs.foldl registerStep db

/-- Whether a register POST passes the email checks and reaches the upsert.
`register` never modifies the users table, so over a register sequence this
is a pure predicate of the initial users. -/
def regReachesUpsert (users : List User) (i : RegInput) : Bool :=
  !(i.email == "" || !(i.email.data.contains '@'))
    && !(users.find? (fun u => u.email == i.email)).isSome

/-- The pending row inserted by a fully successful register POST. -/
def regRow (i : RegInput) : Pending :=
  ⟨i.email, i.role, dumps i.email emailVerificationSalt i.now, i.now + 3600⟩

/-- The pending row for email `e` after a register sequence, folded left to
right: a fully successful POST for `e` installs its fresh row; a POST for
`e` whose upsert deleted but failed to re-insert clears the row; anything
else leaves the accumulator unchanged. -/
def expectedRow (users : List User) (e : String) :
    Option Pending → List RegInput → Option Pending
  | cur, [] => cur
  | cur, i :: rest =>
    expectedRow users e
      (if i.email == e && regReachesUpsert users i && i.deleteOk then
        (if i.insertOk then some (regRow i) else none)
      else cur) rest

/-- Helper: the upsert never touches the users table. -/
theorem create_pending_users (db : DB) (dOk iOk : Bool)
    (email role : String) (t : Token) (n : Nat) :
    (create_pending_registration db dOk iOk email role t n).2.users
      = db.users := by
  unfold create_pending_registration
  split
  · rfl
  · split <;> rfl

/-- Helper: a register POST never modifies the users table. -/
theorem registerStep_users (db : DB) (i : RegInput) :
    (registerStep db i).users = db.users := by
  unfold registerStep register
  split
  · rfl
  · split
    · rfl
    · cases hc : create_pending_registration db i.deleteOk i.insertOk i.email
          i.role (dumps i.email emailVerificationSalt i.now) i.now with
      | mk o dbx =>
        have hu : dbx.users = db.users := by
          have h2 := create_pending_users db i.deleteOk i.insertOk i.email
            i.role (dumps i.email emailVerificationSalt i.now) i.now
          rw [hc] at h2
          exact h2
        dsimp only
        rw [hc]
        cases o <;> exact hu

/-- Helper: filtering for an email after deleting it yields nothing. -/
theorem filter_after_delete (l : List Pending) (e : String) :
    (l.filter (fun p => p.email != e)).filter (fun p => p.email == e)
      = [] := by
  induction l with
  | nil => rfl
  | cons a l ih =>
    by_cases ha : a.email = e
    · simp [List.filter_cons, ha, ih]
    · simp [List.filter_cons, ha, ih]

/-- Helper: deleting one email commutes away under a filter for another. -/
theorem filter_delete_other (l : List Pending) (a e : String)
    (hne : ¬ a = e) :
    (l.filter (fun p => p.email != a)).filter (fun p => p.email == e)
      = l.filter (fun p => p.email == e) := by
  induction l with
  | nil => rfl
  | cons x l ih =>
    by_cases hx : x.email = a
    · have hxe : ¬ x.email = e := by rw [hx]; exact hne
      simp [List.filter_cons, hx, hxe, hne, ih]
    · simp [List.filter_cons, hx, ih]

/-- Helper: the effect of one register POST on the pending rows of any
fixed email `e`. -/
theorem registerStep_pending_filter (db : DB) (i : RegInput) (e : String) :
    ((registerStep db i).pending.filter (fun p => p.email == e))
      = (if i.email == e && regReachesUpsert db.users i && i.deleteOk then
          (if i.insertOk then [regRow i] else [])
        else db.pending.filter (fun p => p.email == e)) := by
  unfold registerStep register
  by_cases hv : (i.email == "" || !(i.email.data.contains '@')) = true
  · have hr : regReachesUpsert db.users i = false := by
      unfold regReachesUpsert
      rw [hv]
      rfl
    rw [if_pos hv, hr]
    simp
  · rw [if_neg hv]
    rw [Bool.not_eq_true] at hv
    by_cases hd : (get_user_by_email db i.email).isSome = true
    · have hd' : (db.users.find? (fun u => u.email == i.email)).isSome
          = true := hd
      have hr : regReachesUpsert db.users i = false := by
        simp [regReachesUpsert, hd']
      rw [if_pos hd, hr]
      simp
    · have hd' : (db.users.find? (fun u => u.email == i.email)).isSome
          = false := by
        rw [Bool.not_eq_true] at hd
        exact hd
      have hr : regReachesUpsert db.users i = true := by
        unfold regReachesUpsert
        rw [hv, hd']
        rfl
      rw [if_neg hd, hr]
      cases hdel : i.deleteOk with
      | false => simp [hdel, create_pending_registration]
      | true =>
        cases hins : i.insertOk with
        | false =>
          by_cases he : i.email = e
          · subst he
            simp [hdel, hins, create_pending_registration,
              filter_after_delete]
          · simp [hdel, hins, create_pending_registration, he,
              filter_delete_other db.pending i.email e he]
        | true =>
          by_cases he : i.email = e
          · subst he
            simp [hdel, hins, create_pending_registration,
              List.filter_append, List.filter_cons, filter_after_delete,
              regRow]
          · simp [hdel, hins, create_pending_registration,
              List.filter_append, List.filter_cons, he,
              filter_delete_other db.pending i.email e he]

/-- Helper: the pending rows for `e` along a register sequence follow the
`expectedRow` accumulator exactly. -/
theorem runRegisters_filter (e : String) (inputs : List RegInput) :
    ∀ (db : DB) (cur : Option Pending),
      db.pending.filter (fun p => p.email == e) = cur.toList →
      (runRegisters db inputs).pending.filter (fun p => p.email == e)
        = (expectedRow db.users e cur inputs).toList := by
  induction inputs with
  | nil =>
    intro db cur h
    exact h
  | cons i rest ih =>
    intro db cur h
    have hnew : (registerStep db i).pending.filter (fun p => p.email == e)
        = (if i.email == e && regReachesUpsert db.users i && i.deleteOk then
            (if i.insertOk then some (regRow i) else none)
          else cur).toList := by
      rw [registerStep_pending_filter db i e, h]
      by_cases hc :
          (i.email == e && regReachesUpsert db.users i && i.deleteOk) = true
      · cases hi : i.insertOk <;> simp [hc, hi]
      · rw [Bool.not_eq_true] at hc
        simp [hc]
    have hrec := ih (registerStep db i)
      (if i.email == e && regReachesUpsert db.users i && i.deleteOk then
        (if i.insertOk then some (regRow i) else none)
      else cur) hnew
    rw [registerStep_users db i] at hrec
    unfold runRegisters at hrec ⊢
    rw [List.foldl_cons]
    rw [hrec]
    simp only [expectedRow]

/-- C3: over any sequence of register POSTs (arbitrary emails, roles,
request times and store-call fates) starting from a store with no pending
rows, the pending rows carrying any email `e` are exactly the optional row
computed by `expectedRow` — the row of the most recent fully successful
register POST for `e` unless a later failed upsert cleared it — so at every
point there is at most one pending registration row per email, and when one
exists it is the most recently issued one. -/
theorem pending_unique_per_email (users : List User)
    (inputs : List RegInput) (e : String) :
    ((runRegisters ⟨users, []⟩ inputs).pending.filter
        (fun p => p.email == e)) = (expectedRow users e none inputs).toList
    ∧ ((runRegisters ⟨users, []⟩ inputs).pending.filter
        (fun p => p.email == e)).length ≤ 1 := by
  have hmain := runRegisters_filter e inputs ⟨users, []⟩ none rfl
  refine ⟨hmain, ?_⟩
  rw [hmain]
  cases expectedRow users e none inputs <;> simp

end Siacoba
